import Mathlib

/-!
# WS2812B LED strip driver (M2003FC/WS2812B)

A shallow embedding of `WS2812B.c` / `WS2812B.h`, and of the rainbow timing test in the
main loop of `WS2812B_Demo.c`.

The C functions act on two globals (`g_ws2812bCount`, `g_ws2812bColors`) and on the
hardware: the output pin PB11, the CPU (NOP instructions, the interrupt mask) and the
UART behind `printf`.  The embedding threads one `State` value through every function;
every hardware action is appended, in program order, to `State.trace`.

* `uint8_t` / `uint32_t` values are natural numbers; none of the modelled arithmetic can
  wrap (loop counters stay below their bound, `ns / 42` and `i % 7` only shrink).
* An access outside the 30-slot array `g_ws2812bColors` (undefined behaviour in C) makes
  the embedded function return `none`.
* A counted loop `for (i = 0; i < n; i++)` whose body assigns neither `i` nor `n` is the
  structural iteration `forUp`; the descending loop of `WS2812B_SendByte` is `forDown`.
-/

namespace WS2812B

/-! ## Data model (WS2812B.h) -/

/-- The macro `DEFAULT_WS2812B_COUNT`. -/
def DEFAULT_WS2812B_COUNT : Nat := 5

/-- The macro `MAX_WS2812B_COUNT`: number of slots of `g_ws2812bColors`. -/
def MAX_WS2812B_COUNT : Nat := 30

/-- The struct `RGB_t`: three `uint8_t` channels, stored in the order r, g, b. -/
structure RGB_t where
  r : Nat
  g : Nat
  b : Nat
deriving DecidableEq

/-- One observable hardware action. -/
inductive Event where
  /-- A write of the level of output pin PB11 (`true` = high). -/
  | pin (level : Bool)
  /-- One executed `__NOP()`. -/
  | nop
  /-- The instruction behind `__disable_irq()`. -/
  | disable_irq
  /-- The instruction behind `__enable_irq()`. -/
  | enable_irq
  /-- A call of `printf` with its format string and integer arguments. -/
  | printf (fmt : String) (args : List Nat)
deriving DecidableEq

/-- The globals of `WS2812B.c`, the interrupt-enable state of the CPU, and the log of
hardware actions performed so far. -/
structure State where
  g_ws2812bCount : Nat
  g_ws2812bColors : List RGB_t
  irqEnabled : Bool
  trace : List Event
deriving DecidableEq

/-- The table `RAINBOW_COLORS`. -/
def RAINBOW_COLORS : List RGB_t :=
  [ ⟨255, 0, 0⟩,
    ⟨255, 127, 0⟩,
    ⟨255, 255, 0⟩,
    ⟨0, 255, 0⟩,
    ⟨0, 0, 255⟩,
    ⟨75, 0, 130⟩,
    ⟨143, 0, 255⟩ ]

/-- The constant `RAINBOW_COLOR_COUNT = sizeof(RAINBOW_COLORS) / sizeof(RGB_t)`. -/
def RAINBOW_COLOR_COUNT : Nat := RAINBOW_COLORS.length

/-- The state after static initialisation: `g_ws2812bCount = DEFAULT_WS2812B_COUNT`, the
colour array zero-filled, interrupts enabled, nothing done to the hardware yet. -/
def State.init : State :=
  { g_ws2812bCount := DEFAULT_WS2812B_COUNT
    g_ws2812bColors := List.replicate MAX_WS2812B_COUNT ⟨0, 0, 0⟩
    irqEnabled := true
    trace := [] }

/-- The data-model invariant of the pixel buffer: the array has its 30 slots and the
active length does not exceed them. -/
def State.WF (s : State) : Prop :=
  s.g_ws2812bColors.length = MAX_WS2812B_COUNT ∧ s.g_ws2812bCount ≤ MAX_WS2812B_COUNT

instance (s : State) : Decidable s.WF := by
  unfold State.WF; infer_instance

/-! ## Hardware primitives -/

/-- Append one hardware action to the log. -/
def emit (e : Event) (s : State) : State :=
  { s with trace := s.trace ++ [e] }

/-- The intrinsic `__NOP()`. -/
def __NOP (s : State) : State := emit Event.nop s

/-- The assignment `WS2812B_DO = v` (the single-bit register PB11). -/
def WS2812B_DO (v : Nat) (s : State) : State := emit (Event.pin (v != 0)) s

/-- The statement `WS2812B_PORT->DOUT &= ~WS2812B_PIN`: clears bit 11 of port B. -/
def DOUT_clear_WS2812B_PIN (s : State) : State := emit (Event.pin false) s

/-- The intrinsic `__disable_irq()`. -/
def __disable_irq (s : State) : State :=
  { emit Event.disable_irq s with irqEnabled := false }

/-- The intrinsic `__enable_irq()`. -/
def __enable_irq (s : State) : State :=
  { emit Event.enable_irq s with irqEnabled := true }

/-- A call of `printf`. -/
def printf (fmt : String) (args : List Nat) (s : State) : State :=
  emit (Event.printf fmt args) s

/-- Read of `g_ws2812bColors[i]`; `none` outside the array. -/
def load (i : Nat) (s : State) : Option RGB_t := s.g_ws2812bColors[i]?

/-- Assignment `g_ws2812bColors[i] = c`; `none` outside the array. -/
def store (i : Nat) (c : RGB_t) (s : State) : Option State :=
  if i < s.g_ws2812bColors.length then
    some { s with g_ws2812bColors := s.g_ws2812bColors.set i c }
  else none

/-! ## Loops -/

/-- The loop `for (i = 0; i < n; i++) body(i)` with an infallible body. -/
def forUp {σ : Type} (body : Nat → σ → σ) : Nat → σ → σ
  | 0, s => s
  | k + 1, s => body k (forUp body k s)

/-- The loop `for (i = 0; i < n; i++) body(i)` with a body that can fail. -/
def forUpM {σ : Type} (body : Nat → σ → Option σ) : Nat → σ → Option σ
  | 0, s => some s
  | k + 1, s => (forUpM body k s).bind (body k)

/-- The loop `for (i = n - 1; i >= 0; i--) body(i)` over a signed counter. -/
def forDown {σ : Type} (body : Nat → σ → σ) : Nat → σ → σ
  | 0, s => s
  | k + 1, s => forDown body k (body k s)

/-! ## WS2812B.c -/

/-- The function `DelayNs`. -/
def DelayNs (ns : Nat) (s : State) : State :=
  let nops := ns / 42
  let nops := if nops = 0 then 1 else nops
  forUp (fun _ s => __NOP s) nops s

/-- The function `WS2812B_SetLEDCount`. -/
def WS2812B_SetLEDCount (count : Nat) (s : State) : State :=
  let p : Nat × State :=
    if count > MAX_WS2812B_COUNT then
      (MAX_WS2812B_COUNT,
        printf "Warning: LED count exceeds limit, set to maximum: %d\n" [MAX_WS2812B_COUNT] s)
    else (count, s)
  let s := { p.2 with g_ws2812bCount := p.1 }
  printf "WS2812B LED count set to: %d\n" [s.g_ws2812bCount] s

/-- The function `DelayNop`. -/
def DelayNop (nops : Nat) (s : State) : State :=
  let nops := if nops = 0 then 1 else nops
  forUp (fun _ s => __NOP s) nops s

/-- The function `WS2812B_SendBit`. -/
def WS2812B_SendBit (bit : Nat) (s : State) : State :=
  if bit ≠ 0 then
    let s := WS2812B_DO 1 s
    let s := __NOP s
    let s := __NOP s
    let s := __NOP s
    let s := __NOP s
    let s := __NOP s
    let s := __NOP s
    let s := __NOP s
    let s := __NOP s
    let s := __NOP s
    let s := __NOP s
    let s := WS2812B_DO 0 s
    let s := __NOP s
    let s := __NOP s
    let s := __NOP s
    let s := __NOP s
    s
  else
    let s := WS2812B_DO 1 s
    let s := __NOP s
    let s := __NOP s
    let s := __NOP s
    let s := __NOP s
    let s := WS2812B_DO 0 s
    let s := __NOP s
    let s := __NOP s
    let s := __NOP s
    let s := __NOP s
    let s := __NOP s
    let s := __NOP s
    let s := __NOP s
    let s := __NOP s
    let s := __NOP s
    let s := __NOP s
    s

/-- The function `WS2812B_SendByte`: `i` runs from 7 down to 0. -/
def WS2812B_SendByte (byte : Nat) (s : State) : State :=
  forDown (fun i s => WS2812B_SendBit ((byte >>> i) &&& 0x01) s) 8 s

/-- The function `WS2812B_SendColor`. -/
def WS2812B_SendColor (rgb : RGB_t) (s : State) : State :=
  let s := WS2812B_SendByte rgb.g s
  let s := WS2812B_SendByte rgb.r s
  let s := WS2812B_SendByte rgb.b s
  s

/-- The function `WS2812B_Reset`. -/
def WS2812B_Reset (s : State) : State :=
  let s := DOUT_clear_WS2812B_PIN s
  DelayNop 1200 s

/-- The function `WS2812B_Update`. -/
def WS2812B_Update (s : State) : Option State :=
  let s := __disable_irq s
  (forUpM (fun i s => (load i s).map (fun c => WS2812B_SendColor c s))
      s.g_ws2812bCount s).map
    (fun s =>
      let s := WS2812B_Reset s
      __enable_irq s)

/-- The function `WS2812B_SetLEDColor`. -/
def WS2812B_SetLEDColor (index : Nat) (rgb : RGB_t) (s : State) : Option State :=
  if index < s.g_ws2812bCount then store index rgb s else some s

/-- The function `WS2812B_ShowRainbow`. -/
def WS2812B_ShowRainbow (s : State) : Option State :=
  (forUpM (fun i s =>
      let colorIndex := i % RAINBOW_COLOR_COUNT
      (RAINBOW_COLORS[colorIndex]?).bind (fun c => WS2812B_SetLEDColor i c s))
    s.g_ws2812bCount s).bind
  (fun s => (WS2812B_Update s).map (fun s => printf "Rainbow colors displayed\n" [] s))

/-- The function `WS2812B_ShowSolidColor`. -/
def WS2812B_ShowSolidColor (rgb : RGB_t) (s : State) : Option State :=
  (forUpM (fun i s => WS2812B_SetLEDColor i rgb s) s.g_ws2812bCount s).bind
  (fun s => (WS2812B_Update s).map
    (fun s => printf "Solid color displayed (R:%d G:%d B:%d)\n" [rgb.r, rgb.g, rgb.b] s))

/-- The function `WS2812B_ShiftRainbow`. -/
def WS2812B_ShiftRainbow (s : State) : Option State :=
  if s.g_ws2812bCount ≤ 1 then some s
  else
    (load 0 s).bind fun firstColor =>
    (forUpM (fun i s => (load (i + 1) s).bind (fun c => store i c s))
      (s.g_ws2812bCount - 1) s).bind fun s =>
    (store (s.g_ws2812bCount - 1) firstColor s).bind fun s =>
    (WS2812B_Update s).map fun s =>
    printf "Rainbow colors shifted one position\n" [] s

/-! ## Closed forms of the emitted signal -/

/-- A pulse: the pin is driven high, `hi` NOPs pass, the pin is driven low, `lo` NOPs
pass. -/
def pulse (hi lo : Nat) : List Event :=
  Event.pin true :: List.replicate hi Event.nop ++
    Event.pin false :: List.replicate lo Event.nop

/-- The pulse that encodes one bit value. -/
def bitPulse (v : Bool) : List Event :=
  if v then pulse 10 4 else pulse 4 10

/-- The eight bit values of a byte, most significant bit first. -/
def byteBits (x : Nat) : List Bool :=
  (List.range 8).map (fun k => x.testBit (7 - k))

/-- The signal of one byte: the pulses of its bits, most significant first. -/
def byteWire (x : Nat) : List Event :=
  (byteBits x).flatMap bitPulse

/-- The reset hold: the pin is driven low and 1200 NOPs pass. -/
def resetHold : List Event :=
  Event.pin false :: List.replicate 1200 Event.nop

/-- The signal of one pixel: its green, red and blue bytes, in that order. -/
def colorWire (c : RGB_t) : List Event :=
  byteWire c.g ++ byteWire c.r ++ byteWire c.b

/-- The 24 bit values of one pixel in wire order. -/
def colorBits (c : RGB_t) : List Bool :=
  byteBits c.g ++ byteBits c.r ++ byteBits c.b

/-- The palette entry the rainbow effect uses for slot `i`. -/
def paletteAt (i : Nat) : RGB_t :=
  (RAINBOW_COLORS[i % RAINBOW_COLOR_COUNT]?).getD ⟨0, 0, 0⟩

/-- The calls `setActiveCount(3)`, `setPixel(0,{255,0,0})`, `setPixel(1,{0,255,0})`,
`setPixel(2,{0,0,255})` made on the initial state. -/
def scenario : Option State :=
  let s := WS2812B_SetLEDCount 3 State.init
  (WS2812B_SetLEDColor 0 ⟨255, 0, 0⟩ s).bind fun s =>
  (WS2812B_SetLEDColor 1 ⟨0, 255, 0⟩ s).bind fun s =>
  WS2812B_SetLEDColor 2 ⟨0, 0, 255⟩ s

/-- The state the scenario reaches before `update()`. -/
def scenarioState : State :=
  { g_ws2812bCount := 3
    g_ws2812bColors := [⟨255, 0, 0⟩, ⟨0, 255, 0⟩, ⟨0, 0, 255⟩] ++ List.replicate 27 ⟨0, 0, 0⟩
    irqEnabled := true
    trace := [Event.printf "WS2812B LED count set to: %d\n" [3]] }

/-! ## WS2812B_Demo.c -/

/-- Subtraction of two `uint32_t` values, as C computes it (modulo 2^32). -/
def sub32 (a b : Nat) : Nat := (a + 2 ^ 32 - b) % 2 ^ 32

/-- The rainbow part of one pass of the `while (1)` loop of `main`:
`if ((g_u32Timer0Ticks - lastRainbowShiftTime) >= 50)` followed by the call of
`WS2812B_ShiftRainbow` and the assignment `lastRainbowShiftTime = g_u32Timer0Ticks`.
The volatile tick counter is read twice; `ticksAtTest` and `ticksAtStore` are the two
values read.  The result is the new state and the new `lastRainbowShiftTime`. -/
def main_rainbowStep (ticksAtTest ticksAtStore lastRainbowShiftTime : Nat) (s : State) :
    Option (State × Nat) :=
  if sub32 ticksAtTest lastRainbowShiftTime ≥ 50 then
    (WS2812B_ShiftRainbow s).map (fun s => (s, ticksAtStore))
  else some (s, lastRainbowShiftTime)

/-- The period the comment above that `if` states for the rotation: "100 ticks = 1
second, because Timer0 is 100 Hz" (`TIMER_Open(TIMER0, TIMER_PERIODIC_MODE, 100)`). -/
def RAINBOW_SHIFT_TICKS_DOCUMENTED : Nat := 100

/-! ## Notions used to state the properties -/

/-- The events a call appended to the log: the log after the call without the log before
it. -/
def emitted (before after : State) : List Event :=
  after.trace.drop before.trace.length

/-- Whether an event shapes the signal on the wire: a pin write or a NOP delay. -/
def isWire : Event → Bool
  | Event.pin _ => true
  | Event.nop => true
  | _ => false

/-- The pin writes and NOP delays of a trace, in order. -/
def wireTrace (t : List Event) : List Event := t.filter isWire

/-- Whether some pin write or NOP of the trace is executed while interrupts are enabled,
when the trace starts in interrupt-enable state `q`. -/
def exposed : Bool → List Event → Bool
  | _, [] => false
  | _, Event.disable_irq :: t => exposed false t
  | _, Event.enable_irq :: t => exposed true t
  | q, Event.pin _ :: t => q || exposed q t
  | q, Event.nop :: t => q || exposed q t
  | q, Event.printf _ _ :: t => exposed q t

/-- The call `WS2812B_ShiftRainbow()` made `k` times in a row. -/
def WS2812B_ShiftRainbow_times : Nat → State → Option State
  | 0, s => some s
  | k + 1, s => (WS2812B_ShiftRainbow_times k s).bind WS2812B_ShiftRainbow

/-- The calibration stated in the comments of `DelayNs`: at the 24 MHz CPU clock 24 NOPs
take one microsecond. -/
def NOPS_PER_US : Nat := 24

/-- A call of one of the public operations, with its arguments. -/
inductive Op where
  | setActiveCount (n : Nat)
  | setPixel (index : Nat) (color : RGB_t)
  | update
  | showSolid (color : RGB_t)
  | showRainbow
  | shiftRainbow

/-- The C function behind each public operation. -/
def Op.run : Op → State → Option State
  | Op.setActiveCount n, s => some (WS2812B_SetLEDCount n s)
  | Op.setPixel index color, s => WS2812B_SetLEDColor index color s
  | Op.update, s => WS2812B_Update s
  | Op.showSolid color, s => WS2812B_ShowSolidColor color s
  | Op.showRainbow, s => WS2812B_ShowRainbow s
  | Op.shiftRainbow, s => WS2812B_ShiftRainbow s

/-- A sequence of public operations, run in order; `none` as soon as one of them
accesses the array out of range. -/
def runOps : List Op → State → Option State
  | [], s => some s
  | op :: ops, s => (op.run s).bind (runOps ops)

/-- The channels of a colour are `uint8_t` values. -/
def RGB_t.InRange (c : RGB_t) : Prop := c.r < 256 ∧ c.g < 256 ∧ c.b < 256

instance (c : RGB_t) : Decidable c.InRange := by
  unfold RGB_t.InRange; infer_instance

/-- The state with a single active slot: `setActiveCount(1)` on the initial state. -/
def singleLedState : State := WS2812B_SetLEDCount 1 State.init

/-- The scenario state entered with interrupts already disabled by the caller. -/
def irqOffState : State := { scenarioState with irqEnabled := false }

/-! ## A receiver: decoding the signal on the wire -/

/-- One step of the receiver, reading the trace from its end towards its start.  The
state is: the NOPs counted since the last pin write seen, the length of the low phase
that follows the position (if a falling edge was seen), and the bits decoded so far.
At a rising edge the pulse is complete: it is a 1 when its high phase has more NOPs than
its low phase. -/
def decodeStep (e : Event) (st : Nat × Option Nat × List Bool) : Nat × Option Nat × List Bool :=
  match e, st with
  | Event.nop, (n, lo, bits) => (n + 1, lo, bits)
  | Event.pin false, (n, _, bits) => (0, some n, bits)
  | Event.pin true, (n, some lo, bits) => (0, none, decide (lo < n) :: bits)
  | Event.pin true, (_, none, bits) => (0, none, bits)
  | _, st => st

/-- The bit values of the pulses of a trace, in order. -/
def decodeBits (t : List Event) : List Bool :=
  (t.foldr decodeStep (0, none, [])).2.2

/-- The value of a group of bits, most significant bit first. -/
def byteOfBits (bs : List Bool) : Nat :=
  bs.foldl (fun acc b => 2 * acc + (if b then 1 else 0)) 0

/-- The colour of a group of 24 bits: the bytes green, red, blue in that order. -/
def colorOfBits (bs : List Bool) : RGB_t :=
  { g := byteOfBits (bs.take 8)
    r := byteOfBits ((bs.drop 8).take 8)
    b := byteOfBits ((bs.drop 16).take 8) }

/-- The colours of the first `n` groups of 24 bits. -/
def colorsOfBits : Nat → List Bool → List RGB_t
  | 0, _ => []
  | n + 1, bs => colorOfBits (bs.take 24) :: colorsOfBits n (bs.drop 24)

/-- The pixels a receiver reads from a trace: pulses to bits, bits to bytes (most
significant bit first), bytes to (green, red, blue) triples. -/
def decodeFrame (t : List Event) : List RGB_t :=
  colorsOfBits ((decodeBits t).length / 24) (decodeBits t)

/-! ## Lemmas on the primitives -/

theorem forUp_NOP (n : Nat) (s : State) :
    forUp (fun _ s => __NOP s) n s =
      { s with trace := s.trace ++ List.replicate n Event.nop } := by
  induction n with
  | zero => simp [forUp]
  | succ k ih =>
    show __NOP (forUp (fun _ s => __NOP s) k s) = _
    rw [ih]
    simp [__NOP, emit, List.replicate_add]

theorem WS2812B_SendBit_eq (bit : Nat) (s : State) :
    WS2812B_SendBit bit s = { s with trace := s.trace ++ bitPulse (bit != 0) } := by
  by_cases h : bit = 0
  · subst h
    simp [WS2812B_SendBit, WS2812B_DO, __NOP, emit, bitPulse, pulse, List.replicate]
  · simp [WS2812B_SendBit, WS2812B_DO, __NOP, emit, bitPulse, pulse, List.replicate, h]

theorem shift_and_one_ne_zero (x i : Nat) :
    (((x >>> i) &&& 0x01) != 0) = x.testBit i := by
  simp [Nat.testBit, Nat.and_comm]

theorem byteWire_eq (x : Nat) :
    byteWire x =
      bitPulse (x.testBit 7) ++ (bitPulse (x.testBit 6) ++ (bitPulse (x.testBit 5) ++
      (bitPulse (x.testBit 4) ++ (bitPulse (x.testBit 3) ++ (bitPulse (x.testBit 2) ++
      (bitPulse (x.testBit 1) ++ bitPulse (x.testBit 0))))))) := by
  simp only [byteWire, byteBits, List.range, List.range.loop, List.map, List.flatMap_cons,
    List.flatMap_nil, List.append_nil]

theorem WS2812B_SendByte_eq (byte : Nat) (s : State) :
    WS2812B_SendByte byte s = { s with trace := s.trace ++ byteWire byte } := by
  simp only [WS2812B_SendByte, forDown, WS2812B_SendBit_eq, shift_and_one_ne_zero,
    byteWire_eq, List.append_assoc]

theorem WS2812B_SendColor_eq (rgb : RGB_t) (s : State) :
    WS2812B_SendColor rgb s =
      { s with trace := s.trace ++ (byteWire rgb.g ++ byteWire rgb.r ++ byteWire rgb.b) } := by
  simp [WS2812B_SendColor, WS2812B_SendByte_eq, List.append_assoc]

theorem DelayNop_eq (nops : Nat) (s : State) :
    DelayNop nops s =
      { s with trace := s.trace ++ List.replicate (if nops = 0 then 1 else nops) Event.nop } := by
  simp only [DelayNop, forUp_NOP]

theorem WS2812B_Reset_eq (s : State) :
    WS2812B_Reset s = { s with trace := s.trace ++ resetHold } := by
  have h : (if (1200 : Nat) = 0 then 1 else 1200) = 1200 := by decide
  simp only [WS2812B_Reset, DelayNop_eq, DOUT_clear_WS2812B_PIN, emit, resetHold, h,
    List.append_assoc, List.singleton_append]

theorem colorWire_eq_bits (c : RGB_t) : colorWire c = (colorBits c).flatMap bitPulse := by
  simp [colorWire, colorBits, byteWire]

theorem length_colorBits (c : RGB_t) : (colorBits c).length = 24 := by
  simp [colorBits, byteBits]

theorem length_flatMap_colorBits (cs : List RGB_t) :
    (cs.flatMap colorBits).length = 24 * cs.length := by
  induction cs with
  | nil => simp
  | cons c cs ih =>
    simp only [List.flatMap_cons, List.length_append, length_colorBits, ih, List.length_cons]
    omega

theorem flatMap_colorWire_eq_bits (cs : List RGB_t) :
    cs.flatMap colorWire = (cs.flatMap colorBits).flatMap bitPulse := by
  induction cs with
  | nil => simp
  | cons c cs ih => simp [ih, colorWire_eq_bits]

/-- The transmit loop of `WS2812B_Update`, run for `n` iterations inside the array. -/
theorem sendLoop_eq (N : Nat) (cs : List RGB_t) (q : Bool) (t : List Event) (n : Nat)
    (hn : n ≤ cs.length) :
    forUpM (fun i s => (load i s).map (fun c => WS2812B_SendColor c s)) n ⟨N, cs, q, t⟩ =
      some ⟨N, cs, q, t ++ (cs.take n).flatMap colorWire⟩ := by
  induction n with
  | zero => simp [forUpM]
  | succ k ih =>
    have hk : k < cs.length := by omega
    rw [forUpM, ih (by omega)]
    simp only [Option.some_bind, load, List.getElem?_eq_getElem hk,
      Option.map_some', WS2812B_SendColor_eq, List.take_succ, Option.toList,
      List.flatMap_append, List.flatMap_cons, List.flatMap_nil, List.append_nil, colorWire,
      List.append_assoc]

/-- The transmit loop as the left fold of `WS2812B_SendColor` over the active slots. -/
theorem sendLoop_eq_foldl (s : State) (n : Nat) (hn : n ≤ s.g_ws2812bColors.length) :
    forUpM (fun i s => (load i s).map (fun c => WS2812B_SendColor c s)) n s =
      some ((s.g_ws2812bColors.take n).foldl (fun st c => WS2812B_SendColor c st) s) := by
  induction n with
  | zero => simp [forUpM]
  | succ k ih =>
    have hk : k < s.g_ws2812bColors.length := by omega
    have hc : ∀ (l : List RGB_t) (st : State),
        (l.foldl (fun st c => WS2812B_SendColor c st) st).g_ws2812bColors =
          st.g_ws2812bColors := by
      intro l
      induction l with
      | nil => intro st; rfl
      | cons c l ihl => intro st; rw [List.foldl_cons, ihl, WS2812B_SendColor_eq]
    rw [forUpM, ih (by omega)]
    simp only [Option.some_bind, load, hc,
      List.getElem?_eq_getElem hk, Option.map_some', List.take_succ, Option.toList,
      List.foldl_append, List.foldl_cons, List.foldl_nil]

theorem WS2812B_Update_eq (N : Nat) (cs : List RGB_t) (q : Bool) (t : List Event)
    (hN : N ≤ cs.length) :
    WS2812B_Update ⟨N, cs, q, t⟩ =
      some ⟨N, cs, true,
        t ++ Event.disable_irq ::
          ((cs.take N).flatMap colorWire ++ resetHold ++ [Event.enable_irq])⟩ := by
  simp only [WS2812B_Update, __disable_irq, emit, sendLoop_eq _ _ _ _ _ hN, Option.map_some',
    WS2812B_Reset_eq, __enable_irq, List.append_assoc, List.singleton_append,
    List.cons_append, List.nil_append]

/-! ## Lemmas on the buffer loops -/

theorem store_eq (N : Nat) (cs : List RGB_t) (q : Bool) (t : List Event) (i : Nat)
    (c : RGB_t) (hi : i < cs.length) :
    store i c ⟨N, cs, q, t⟩ = some ⟨N, cs.set i c, q, t⟩ := by
  simp [store, hi]

theorem WS2812B_SetLEDColor_eq (N : Nat) (cs : List RGB_t) (q : Bool) (t : List Event)
    (i : Nat) (c : RGB_t) (hi : i < N) (hl : i < cs.length) :
    WS2812B_SetLEDColor i c ⟨N, cs, q, t⟩ = some ⟨N, cs.set i c, q, t⟩ := by
  simp [WS2812B_SetLEDColor, store, hi, hl]

/-- The fill loop shared by the solid and rainbow effects: after `n` iterations slot `j`
holds `f j` for `j < n` and its old value otherwise. -/
theorem fillLoop_eq (f : Nat → RGB_t) (N : Nat) (cs : List RGB_t) (q : Bool)
    (t : List Event) (n : Nat) (hn : n ≤ N) (hl : n ≤ cs.length) :
    ∃ cs2 : List RGB_t,
      forUpM (fun i s => WS2812B_SetLEDColor i (f i) s) n ⟨N, cs, q, t⟩ =
        some ⟨N, cs2, q, t⟩ ∧
      cs2.length = cs.length ∧
      ∀ j, cs2[j]? = if j < n then some (f j) else cs[j]? := by
  induction n with
  | zero => exact ⟨cs, rfl, rfl, fun j => by simp⟩
  | succ k ih =>
    obtain ⟨cs1, h1, h2, h3⟩ := ih (by omega) (by omega)
    refine ⟨cs1.set k (f k), ?_, ?_, ?_⟩
    · rw [forUpM, h1, Option.some_bind]
      exact WS2812B_SetLEDColor_eq N cs1 q t k (f k) (by omega) (by omega)
    · rw [List.length_set, h2]
    · intro j
      rw [List.getElem?_set, h3]
      by_cases hjk : k = j
      · subst hjk
        have : k < cs1.length := by omega
        simp [this]
      · have hjk2 : (j < k + 1) = (j < k) := by
          apply propext; omega
        simp only [hjk, if_false, hjk2]

/-- The copy loop of `WS2812B_ShiftRainbow`: after `n` iterations slot `j` holds the old
slot `j + 1` for `j < n` and its old value otherwise. -/
theorem shiftLoop_eq (N : Nat) (cs : List RGB_t) (q : Bool) (t : List Event) (n : Nat)
    (hl : n + 1 ≤ cs.length) :
    ∃ cs2 : List RGB_t,
      forUpM (fun i s => (load (i + 1) s).bind (fun c => store i c s)) n ⟨N, cs, q, t⟩ =
        some ⟨N, cs2, q, t⟩ ∧
      cs2.length = cs.length ∧
      ∀ j, cs2[j]? = if j < n then cs[j + 1]? else cs[j]? := by
  induction n with
  | zero => exact ⟨cs, rfl, rfl, fun j => by simp⟩
  | succ k ih =>
    obtain ⟨cs1, h1, h2, h3⟩ := ih (by omega)
    have hk1 : k + 1 < cs.length := by omega
    refine ⟨cs1.set k cs[k + 1], ?_, ?_, ?_⟩
    · rw [forUpM, h1, Option.some_bind]
      have hload : load (k + 1) (⟨N, cs1, q, t⟩ : State) = some cs[k + 1] := by
        have hnot : ¬ (k + 1 < k) := by omega
        simp only [load, h3, hnot, if_false]
        exact List.getElem?_eq_getElem hk1
      rw [hload, Option.some_bind]
      exact store_eq N cs1 q t k _ (by omega)
    · rw [List.length_set, h2]
    · intro j
      rw [List.getElem?_set, h3]
      by_cases hjk : k = j
      · subst hjk
        have : k < cs1.length := by omega
        simp [this, hk1]
      · have hjk2 : (j < k + 1) = (j < k) := by
          apply propext; omega
        simp only [hjk, if_false, hjk2]

theorem RAINBOW_COLORS_lookup (i : Nat) :
    RAINBOW_COLORS[i % RAINBOW_COLOR_COUNT]? = some (paletteAt i) := by
  have h : i % RAINBOW_COLOR_COUNT < RAINBOW_COLORS.length :=
    Nat.mod_lt _ (by decide)
  simp only [paletteAt, List.getElem?_eq_getElem h, Option.getD_some]

theorem rainbowLoop_body :
    (fun (i : Nat) (s : State) =>
      let colorIndex := i % RAINBOW_COLOR_COUNT
      (RAINBOW_COLORS[colorIndex]?).bind (fun c => WS2812B_SetLEDColor i c s)) =
    fun i s => WS2812B_SetLEDColor i (paletteAt i) s := by
  funext i s
  simp only [RAINBOW_COLORS_lookup, Option.some_bind]

/-- An effect body: a fill of the active slots, one update, one diagnostic. -/
theorem fill_update_eq (f : Nat → RGB_t) (N : Nat) (cs : List RGB_t) (q : Bool)
    (t : List Event) (fmt : String) (args : List Nat) (hN : N ≤ cs.length) :
    ∃ cs2 : List RGB_t,
      ((forUpM (fun i s => WS2812B_SetLEDColor i (f i) s) N ⟨N, cs, q, t⟩).bind
        (fun s => (WS2812B_Update s).map (fun s => printf fmt args s))) =
        some ⟨N, cs2, true,
          t ++ Event.disable_irq ::
            ((cs2.take N).flatMap colorWire ++ resetHold ++ [Event.enable_irq]) ++
            [Event.printf fmt args]⟩ ∧
      cs2.length = cs.length ∧
      ∀ j, cs2[j]? = if j < N then some (f j) else cs[j]? := by
  obtain ⟨cs2, h1, h2, h3⟩ := fillLoop_eq f N cs q t N (Nat.le_refl N) hN
  refine ⟨cs2, ?_, h2, h3⟩
  rw [h1, Option.some_bind, WS2812B_Update_eq N cs2 q t (by omega), Option.map_some']
  rfl

/-- The state `WS2812B_ShiftRainbow` returns when there are at least two active slots. -/
theorem WS2812B_ShiftRainbow_eq (N : Nat) (cs : List RGB_t) (q : Bool) (t : List Event)
    (hN : N ≤ cs.length) (h2 : 2 ≤ N) :
    ∃ cs2 : List RGB_t,
      WS2812B_ShiftRainbow ⟨N, cs, q, t⟩ =
        some ⟨N, cs2, true,
          t ++ Event.disable_irq ::
            ((cs2.take N).flatMap colorWire ++ resetHold ++ [Event.enable_irq]) ++
            [Event.printf "Rainbow colors shifted one position\n" []]⟩ ∧
      cs2.length = cs.length ∧
      ∀ j, cs2[j]? =
        if j < N - 1 then cs[j + 1]? else if j = N - 1 then cs[0]? else cs[j]? := by
  have h0 : 0 < cs.length := by omega
  obtain ⟨cs1, h1, hl1, hp1⟩ := shiftLoop_eq N cs q t (N - 1) (by omega)
  have hlast : N - 1 < cs1.length := by omega
  have hnot : ¬ (N ≤ 1) := by omega
  have hload : load 0 (⟨N, cs, q, t⟩ : State) = some cs[0] :=
    List.getElem?_eq_getElem h0
  have hlen2 : N ≤ (cs1.set (N - 1) cs[0]).length := by
    rw [List.length_set]; omega
  refine ⟨cs1.set (N - 1) cs[0], ?_, ?_, ?_⟩
  · simp only [WS2812B_ShiftRainbow, hnot, if_false, hload, Option.some_bind, h1,
      store_eq N cs1 q t (N - 1) cs[0] hlast, WS2812B_Update_eq N _ q t hlen2,
      Option.map_some']
    rfl
  · rw [List.length_set, hl1]
  · intro j
    rw [List.getElem?_set, hp1]
    by_cases hj : N - 1 = j
    · subst hj
      simp [hlast, List.getElem?_eq_getElem h0]
    · have hj2 : ¬ (j = N - 1) := fun e => hj e.symm
      simp only [hj, if_false, hj2]

/-- One call of `WS2812B_ShiftRainbow` rotates the active slots left by one, for every
active length inside the array. -/
theorem WS2812B_ShiftRainbow_rotate (N : Nat) (cs : List RGB_t) (q : Bool)
    (t : List Event) (hN : N ≤ cs.length) :
    ∃ (cs2 : List RGB_t) (q2 : Bool) (t2 : List Event),
      WS2812B_ShiftRainbow ⟨N, cs, q, t⟩ = some ⟨N, cs2, q2, t2⟩ ∧
      cs2.length = cs.length ∧
      ∀ j, cs2[j]? = if j < N then cs[(j + 1) % N]? else cs[j]? := by
  by_cases h2 : 2 ≤ N
  · obtain ⟨cs2, h1, hl, hp⟩ := WS2812B_ShiftRainbow_eq N cs q t hN h2
    refine ⟨cs2, _, _, h1, hl, ?_⟩
    intro j
    rw [hp]
    by_cases hj : j < N - 1
    · have hjN : j < N := by omega
      have hmod : (j + 1) % N = j + 1 := Nat.mod_eq_of_lt (by omega)
      simp only [hj, hjN, if_true, hmod]
    · by_cases hj2 : j = N - 1
      · have hjN : j < N := by omega
        have hmod : (j + 1) % N = 0 := by
          have : j + 1 = N := by omega
          rw [this, Nat.mod_self]
        simp only [hj, if_false, hj2, if_true, hjN, hmod]
        simp [hj2 ▸ hjN, hj2 ▸ hmod]
      · have hjN : ¬ (j < N) := by omega
        simp only [hj, hj2, hjN, if_false]
  · have hle : N ≤ 1 := by omega
    refine ⟨cs, q, t, ?_, rfl, ?_⟩
    · simp only [WS2812B_ShiftRainbow, hle, if_true]
    · intro j
      by_cases hjN : j < N
      · have hj0 : j = 0 := by omega
        have hN1 : N = 1 := by omega
        subst hj0
        subst hN1
        simp
      · simp only [hjN, if_false]

/-- After `k` calls of `WS2812B_ShiftRainbow` the active slots are rotated left by `k`. -/
theorem WS2812B_ShiftRainbow_times_eq (k N : Nat) (cs : List RGB_t) (q : Bool)
    (t : List Event) (hN : N ≤ cs.length) :
    ∃ (cs2 : List RGB_t) (q2 : Bool) (t2 : List Event),
      WS2812B_ShiftRainbow_times k ⟨N, cs, q, t⟩ = some ⟨N, cs2, q2, t2⟩ ∧
      cs2.length = cs.length ∧
      ∀ j, cs2[j]? = if j < N then cs[(j + k) % N]? else cs[j]? := by
  induction k with
  | zero =>
    refine ⟨cs, q, t, rfl, rfl, ?_⟩
    intro j
    by_cases hjN : j < N
    · simp only [hjN, if_true, Nat.add_zero, Nat.mod_eq_of_lt hjN]
    · simp only [hjN, if_false]
  | succ k ih =>
    obtain ⟨cs1, q1, t1, h1, hl1, hp1⟩ := ih
    obtain ⟨cs2, q2, t2, h2, hl2, hp2⟩ :=
      WS2812B_ShiftRainbow_rotate N cs1 q1 t1 (by omega)
    refine ⟨cs2, q2, t2, ?_, by omega, ?_⟩
    · rw [WS2812B_ShiftRainbow_times, h1, Option.some_bind, h2]
    · intro j
      rw [hp2]
      by_cases hjN : j < N
      · have hpos : 0 < N := by omega
        have hlt : (j + 1) % N < N := Nat.mod_lt _ hpos
        have hmod : ((j + 1) % N + k) % N = (j + (k + 1)) % N := by
          rw [Nat.mod_add_mod]
          congr 1
          omega
        simp only [hjN, if_true, hp1, hlt, hmod]
      · simp only [hjN, if_false, hp1]

/-! ## Lemmas on traces -/

theorem emitted_mk (N : Nat) (cs : List RGB_t) (q : Bool) (t : List Event) (N2 : Nat)
    (cs2 : List RGB_t) (q2 : Bool) (x : List Event) :
    emitted ⟨N, cs, q, t⟩ ⟨N2, cs2, q2, t ++ x⟩ = x := by
  simp [emitted]

theorem wireTrace_append_printf (x : List Event) (fmt : String) (args : List Nat) :
    wireTrace (x ++ [Event.printf fmt args]) = wireTrace x := by
  simp [wireTrace, List.filter_append, isWire]

theorem isWire_of_mem_bitPulse (v : Bool) (e : Event) (he : e ∈ bitPulse v) :
    isWire e = true := by
  cases v <;>
    simp only [bitPulse, pulse, if_true, Bool.false_eq_true, if_false, List.mem_cons,
      List.mem_append, List.mem_replicate] at he <;>
    rcases he with (he | ⟨_, he⟩) | (he | ⟨_, he⟩) <;> simp [he, isWire]

theorem isWire_of_mem_colorWire (c : RGB_t) (e : Event) (he : e ∈ colorWire c) :
    isWire e = true := by
  rw [colorWire_eq_bits, List.mem_flatMap] at he
  obtain ⟨v, _, hv⟩ := he
  exact isWire_of_mem_bitPulse v e hv

theorem isWire_of_mem_resetHold (e : Event) (he : e ∈ resetHold) : isWire e = true := by
  simp only [resetHold, List.mem_cons, List.mem_replicate] at he
  rcases he with he | ⟨_, he⟩ <;> simp [he, isWire]

theorem isWire_of_mem_frame (cs : List RGB_t) (e : Event)
    (he : e ∈ cs.flatMap colorWire ++ resetHold) : isWire e = true := by
  rw [List.mem_append, List.mem_flatMap] at he
  rcases he with ⟨c, _, hc⟩ | he
  · exact isWire_of_mem_colorWire c e hc
  · exact isWire_of_mem_resetHold e he

theorem exposed_false_append (l rest : List Event) (hl : ∀ e, e ∈ l → isWire e = true) :
    exposed false (l ++ rest) = exposed false rest := by
  induction l with
  | nil => rfl
  | cons e l ih =>
    have htail := ih (fun x hx => hl x (List.mem_cons_of_mem e hx))
    have he := hl e (List.mem_cons_self e l)
    cases e with
    | pin level =>
      show exposed false (Event.pin level :: (l ++ rest)) = _
      simp only [exposed, Bool.false_or, htail]
    | nop =>
      show exposed false (Event.nop :: (l ++ rest)) = _
      simp only [exposed, Bool.false_or, htail]
    | disable_irq => simp [isWire] at he
    | enable_irq => simp [isWire] at he
    | printf fmt args => simp [isWire] at he

/-- A state reached by "fill the buffer, update once, print once" has emitted what one
update on its buffer emits, plus the diagnostic. -/
theorem transmits_once (N : Nat) (cs : List RGB_t) (q : Bool) (t : List Event)
    (cs2 : List RGB_t) (fmt : String) (args : List Nat) (hN : N ≤ cs2.length) (s2 : State)
    (hs2 : s2 = ⟨N, cs2, true,
      t ++ Event.disable_irq ::
        ((cs2.take N).flatMap colorWire ++ resetHold ++ [Event.enable_irq]) ++
        [Event.printf fmt args]⟩) :
    ∃ u : State,
      WS2812B_Update ⟨N, cs2, q, t⟩ = some u ∧
      emitted ⟨N, cs, q, t⟩ s2 = emitted ⟨N, cs, q, t⟩ u ++ [Event.printf fmt args] ∧
      wireTrace (emitted ⟨N, cs, q, t⟩ s2) = wireTrace (emitted ⟨N, cs, q, t⟩ u) := by
  subst hs2
  refine ⟨_, WS2812B_Update_eq N cs2 q t hN, ?_, ?_⟩
  · rw [List.append_assoc, emitted_mk, emitted_mk]
  · rw [List.append_assoc, emitted_mk, emitted_mk, wireTrace_append_printf]

/-! ## Lemmas on the capacity invariant -/

theorem WS2812B_SetLEDCount_WF (n : Nat) (s : State) (h : s.WF) :
    (WS2812B_SetLEDCount n s).WF := by
  obtain ⟨hlen, _⟩ := h
  by_cases hn : n > MAX_WS2812B_COUNT
  · simp only [WS2812B_SetLEDCount, hn, if_true, printf, emit]
    exact ⟨hlen, Nat.le_refl _⟩
  · simp only [WS2812B_SetLEDCount, hn, if_false, printf, emit]
    exact ⟨hlen, Nat.le_of_not_lt hn⟩

theorem WS2812B_SetLEDColor_WF (index : Nat) (rgb : RGB_t) (s : State) (h : s.WF) :
    ∃ s2 : State, WS2812B_SetLEDColor index rgb s = some s2 ∧ s2.WF := by
  obtain ⟨N, cs, q, t⟩ := s
  obtain ⟨hlen, hN⟩ := h
  simp only at hlen hN
  by_cases hi : index < N
  · refine ⟨_, WS2812B_SetLEDColor_eq N cs q t index rgb hi (by omega), ?_, hN⟩
    simp only [List.length_set, hlen]
  · exact ⟨⟨N, cs, q, t⟩, by simp only [WS2812B_SetLEDColor, hi, if_false], hlen, hN⟩

theorem WS2812B_Update_WF (s : State) (h : s.WF) :
    ∃ s2 : State, WS2812B_Update s = some s2 ∧ s2.WF := by
  obtain ⟨N, cs, q, t⟩ := s
  obtain ⟨hlen, hN⟩ := h
  simp only at hlen hN
  exact ⟨_, WS2812B_Update_eq N cs q t (by omega), hlen, hN⟩

theorem WS2812B_ShowSolidColor_WF (rgb : RGB_t) (s : State) (h : s.WF) :
    ∃ s2 : State, WS2812B_ShowSolidColor rgb s = some s2 ∧ s2.WF := by
  obtain ⟨N, cs, q, t⟩ := s
  obtain ⟨hlen, hN⟩ := h
  simp only at hlen hN
  obtain ⟨cs2, h1, hl2, _⟩ := fill_update_eq (fun _ => rgb) N cs q t
    "Solid color displayed (R:%d G:%d B:%d)\n" [rgb.r, rgb.g, rgb.b] (by omega)
  exact ⟨_, h1, hl2.trans hlen, hN⟩

theorem WS2812B_ShowRainbow_WF (s : State) (h : s.WF) :
    ∃ s2 : State, WS2812B_ShowRainbow s = some s2 ∧ s2.WF := by
  obtain ⟨N, cs, q, t⟩ := s
  obtain ⟨hlen, hN⟩ := h
  simp only at hlen hN
  obtain ⟨cs2, h1, hl2, _⟩ := fill_update_eq paletteAt N cs q t
    "Rainbow colors displayed\n" [] (by omega)
  rw [← rainbowLoop_body] at h1
  exact ⟨_, h1, hl2.trans hlen, hN⟩

theorem WS2812B_ShiftRainbow_WF (s : State) (h : s.WF) :
    ∃ s2 : State, WS2812B_ShiftRainbow s = some s2 ∧ s2.WF := by
  obtain ⟨N, cs, q, t⟩ := s
  obtain ⟨hlen, hN⟩ := h
  simp only at hlen hN
  obtain ⟨cs2, q2, t2, h1, hl2, _⟩ := WS2812B_ShiftRainbow_rotate N cs q t (by omega)
  exact ⟨_, h1, hl2.trans hlen, hN⟩

theorem Op.run_WF (op : Op) (s : State) (h : s.WF) :
    ∃ s2 : State, op.run s = some s2 ∧ s2.WF := by
  cases op with
  | setActiveCount n => exact ⟨_, rfl, WS2812B_SetLEDCount_WF n s h⟩
  | setPixel index color => exact WS2812B_SetLEDColor_WF index color s h
  | update => exact WS2812B_Update_WF s h
  | showSolid color => exact WS2812B_ShowSolidColor_WF color s h
  | showRainbow => exact WS2812B_ShowRainbow_WF s h
  | shiftRainbow => exact WS2812B_ShiftRainbow_WF s h

theorem runOps_WF (ops : List Op) (s : State) (h : s.WF) :
    ∃ s2 : State, runOps ops s = some s2 ∧ s2.WF := by
  induction ops generalizing s with
  | nil => exact ⟨s, rfl, h⟩
  | cons op ops ih =>
    obtain ⟨s1, h1, hw1⟩ := Op.run_WF op s h
    obtain ⟨s2, h2, hw2⟩ := ih s1 hw1
    exact ⟨s2, by rw [runOps, h1, Option.some_bind, h2], hw2⟩

theorem DelayNs_eq (ns : Nat) (s : State) :
    DelayNs ns s =
      { s with trace := s.trace ++
          List.replicate (if ns / 42 = 0 then 1 else ns / 42) Event.nop } := by
  simp only [DelayNs, forUp_NOP]

theorem ite_zero_eq_max (n : Nat) : (if n = 0 then 1 else n) = max n 1 := by
  by_cases h : n = 0
  · simp [h]
  · have : max n 1 = n := by omega
    simp [h, this]

/-! ## Lemmas on the receiver -/

theorem foldr_decodeStep_nops (k n : Nat) (lo : Option Nat) (bits : List Bool) :
    (List.replicate k Event.nop).foldr decodeStep (n, lo, bits) = (n + k, lo, bits) := by
  induction k with
  | zero => rfl
  | succ k ih =>
    rw [List.replicate_succ, List.foldr_cons, ih]
    rfl

theorem foldr_decodeStep_pulse (hi lo : Nat) (lo0 : Option Nat) (bits : List Bool) :
    (pulse hi lo).foldr decodeStep (0, lo0, bits) = (0, none, decide (lo < hi) :: bits) := by
  rw [pulse, List.foldr_append, List.foldr_cons, foldr_decodeStep_nops, List.foldr_cons,
    foldr_decodeStep_nops]
  simp only [Nat.zero_add, decodeStep]

theorem foldr_decodeStep_bitPulse (v : Bool) (lo0 : Option Nat) (bits : List Bool) :
    (bitPulse v).foldr decodeStep (0, lo0, bits) = (0, none, v :: bits) := by
  cases v
  · simp only [bitPulse, Bool.false_eq_true, if_false, foldr_decodeStep_pulse]
    rfl
  · simp only [bitPulse, if_true, foldr_decodeStep_pulse]
    rfl

theorem foldr_decodeStep_bits (bs : List Bool) (lo0 : Option Nat) (bits : List Bool) :
    ∃ lo1 : Option Nat,
      (bs.flatMap bitPulse).foldr decodeStep (0, lo0, bits) = (0, lo1, bs ++ bits) := by
  induction bs with
  | nil => exact ⟨lo0, rfl⟩
  | cons v bs ih =>
    obtain ⟨lo1, h1⟩ := ih
    refine ⟨none, ?_⟩
    rw [List.flatMap_cons, List.foldr_append, h1, foldr_decodeStep_bitPulse]
    rfl

theorem foldr_decodeStep_resetHold (n : Nat) (lo : Option Nat) (bits : List Bool) :
    resetHold.foldr decodeStep (n, lo, bits) = (0, some (n + 1200), bits) := by
  rw [resetHold, List.foldr_cons, foldr_decodeStep_nops]
  rfl

/-- The receiver reads the bits of a frame back from what an update emits. -/
theorem decodeBits_frame (bs : List Bool) :
    decodeBits
      (Event.disable_irq :: (bs.flatMap bitPulse ++ resetHold ++ [Event.enable_irq])) =
      bs := by
  obtain ⟨lo1, h1⟩ := foldr_decodeStep_bits bs (some (0 + 1200)) []
  have hlast : [Event.enable_irq].foldr decodeStep (0, none, []) = (0, none, []) := rfl
  rw [decodeBits, List.foldr_cons, List.foldr_append, List.foldr_append, hlast,
    foldr_decodeStep_resetHold, h1]
  simp [decodeStep]

theorem byteBits_eq (x : Nat) :
    byteBits x =
      [x.testBit 7, x.testBit 6, x.testBit 5, x.testBit 4, x.testBit 3, x.testBit 2,
        x.testBit 1, x.testBit 0] := rfl

theorem byteOfBits_byteBits (x : Nat) (hx : x < 256) : byteOfBits (byteBits x) = x := by
  interval_cases x <;> rfl

theorem colorOfBits_colorBits (c : RGB_t) (hc : c.InRange) : colorOfBits (colorBits c) = c := by
  obtain ⟨r, g, b⟩ := c
  obtain ⟨hr, hg, hb⟩ := hc
  simp only at hr hg hb
  have hG := byteOfBits_byteBits g hg
  have hR := byteOfBits_byteBits r hr
  have hB := byteOfBits_byteBits b hb
  rw [byteBits_eq] at hG hR hB
  simp only [colorOfBits, colorBits, byteBits_eq, List.cons_append, List.nil_append,
    List.take_succ_cons, List.take_zero, List.drop_succ_cons, List.drop_zero, hG, hR, hB]

theorem colorsOfBits_flatMap (cs : List RGB_t) (hcs : ∀ c, c ∈ cs → c.InRange) :
    colorsOfBits cs.length (cs.flatMap colorBits) = cs := by
  induction cs with
  | nil => rfl
  | cons c cs ih =>
    have hlen : (colorBits c).length = 24 := length_colorBits c
    rw [List.length_cons, List.flatMap_cons, colorsOfBits, List.take_left' hlen,
      List.drop_left' hlen, colorOfBits_colorBits c (hcs c (List.mem_cons_self c cs)),
      ih (fun x hx => hcs x (List.mem_cons_of_mem c hx))]

/-- The receiver reads the active slots back from what an update emits. -/
theorem decodeFrame_Update (N : Nat) (cs : List RGB_t) (q : Bool) (t : List Event)
    (hN : N ≤ cs.length) (hb : ∀ c, c ∈ cs.take N → c.InRange) :
    ∃ u : State,
      WS2812B_Update ⟨N, cs, q, t⟩ = some u ∧
      decodeFrame (emitted ⟨N, cs, q, t⟩ u) = cs.take N := by
  refine ⟨_, WS2812B_Update_eq N cs q t hN, ?_⟩
  have hl : ((cs.take N).flatMap colorBits).length / 24 = (cs.take N).length := by
    rw [length_flatMap_colorBits]
    omega
  rw [emitted_mk, flatMap_colorWire_eq_bits, decodeFrame, decodeBits_frame, hl,
    colorsOfBits_flatMap _ hb]

/-! ## Claims -/

/-- C1: in every state with 30 slots and active length N ≤ 30, `WS2812B_Update` returns,
and what it appends to the hardware log is: the interrupt disable, then the pulses of the
bits of slots 0..N-1 in order (exactly 24*N bit pulses, each slot sent as
`WS2812B_SendColor` sends it), then one reset hold (pin low, 1200 NOPs), then the
interrupt enable, and nothing else; the globals are unchanged. -/
theorem WS2812B_Update_emits_frame (s : State) (h : s.WF) :
    ∃ bits : List Bool,
      bits = (s.g_ws2812bColors.take s.g_ws2812bCount).flatMap colorBits ∧
      bits.length = 24 * s.g_ws2812bCount ∧
      WS2812B_Update s =
        some { s with
          irqEnabled := true
          trace := s.trace ++
            Event.disable_irq :: (bits.flatMap bitPulse ++ resetHold ++ [Event.enable_irq]) } ∧
      WS2812B_Update s =
        some (__enable_irq (WS2812B_Reset
          ((s.g_ws2812bColors.take s.g_ws2812bCount).foldl
            (fun st c => WS2812B_SendColor c st) (__disable_irq s)))) := by
  obtain ⟨N, cs, q, t⟩ := s
  obtain ⟨hlen, hN⟩ := h
  simp only at hlen hN
  have hle : N ≤ cs.length := by omega
  refine ⟨_, rfl, ?_, ?_, ?_⟩
  · rw [length_flatMap_colorBits, List.length_take, Nat.min_eq_left hle]
  · rw [WS2812B_Update_eq N cs q t hle, flatMap_colorWire_eq_bits]
  · show Option.map _ (forUpM _ N (__disable_irq ⟨N, cs, q, t⟩)) = _
    rw [sendLoop_eq_foldl (__disable_irq ⟨N, cs, q, t⟩) N hle]
    rfl

/-- C1, end-to-end scenario: the four set-up calls reach `scenarioState`, where update
emits 72 bit pulses and one reset hold, the first 24 bits being the bytes 0, 255, 0
(green, red, blue of pixel 0). -/
theorem WS2812B_Update_emits_frame_witness :
    scenario = some scenarioState ∧ scenarioState.WF ∧
    ∃ bits : List Bool,
      bits.length = 72 ∧
      bits.take 24 = byteBits 0 ++ byteBits 255 ++ byteBits 0 ∧
      WS2812B_Update scenarioState =
        some { scenarioState with
          irqEnabled := true
          trace := scenarioState.trace ++
            Event.disable_irq :: (bits.flatMap bitPulse ++ resetHold ++ [Event.enable_irq]) } := by
  refine ⟨rfl, by decide, ?_⟩
  obtain ⟨bits, hb, hl, hu, _⟩ := WS2812B_Update_emits_frame scenarioState (by decide)
  refine ⟨bits, hl, ?_, hu⟩
  rw [hb]
  decide

/-- C2: for every colour, `WS2812B_SendColor` is `WS2812B_SendByte` of the green channel,
then of the red channel, then of the blue channel; it appends exactly these three byte
signals, in that order, to the hardware log. -/
theorem WS2812B_SendColor_green_red_blue (rgb : RGB_t) (s : State) :
    WS2812B_SendColor rgb s =
      WS2812B_SendByte rgb.b (WS2812B_SendByte rgb.r (WS2812B_SendByte rgb.g s)) ∧
    WS2812B_SendColor rgb s =
      { s with trace := s.trace ++ (byteWire rgb.g ++ byteWire rgb.r ++ byteWire rgb.b) } ∧
    ∀ (x : Nat) (t : State), WS2812B_SendByte x t = { t with trace := t.trace ++ byteWire x } :=
  ⟨rfl, WS2812B_SendColor_eq rgb s, WS2812B_SendByte_eq⟩

/-- C3: for every byte, `WS2812B_SendByte` returns after appending exactly 8 bit pulses,
the k-th one (k = 0..7) being the pulse of bit 7-k of the byte; for the byte 0b10110000
the pulses are those of 1,0,1,1,0,0,0,0. -/
theorem WS2812B_SendByte_msb_first (byte : Nat) (s : State) :
    (∃ bits : List Bool,
      bits.length = 8 ∧
      (∀ k, k < 8 → bits[k]? = some (byte.testBit (7 - k))) ∧
      WS2812B_SendByte byte s = { s with trace := s.trace ++ bits.flatMap bitPulse }) ∧
    WS2812B_SendByte 0xB0 s =
      { s with trace := s.trace ++
          [true, false, true, true, false, false, false, false].flatMap bitPulse } := by
  refine ⟨⟨byteBits byte, by simp [byteBits], ?_, WS2812B_SendByte_eq byte s⟩, ?_⟩
  · intro k hk
    simp [byteBits, hk]
  · rw [WS2812B_SendByte_eq]
    rfl

/-- C4: for every argument, `WS2812B_SendBit` drives the pin high, executes `hi` NOPs,
drives the pin low and executes `lo` NOPs, where (hi, lo) is (10, 4) for a non-zero
argument (high phase longer) and (4, 10) for zero (high phase shorter); both pairs have
the same total of 14 NOPs. -/
theorem WS2812B_SendBit_two_pulse_shapes (bit : Nat) (s : State) :
    ∃ hi lo : Nat,
      WS2812B_SendBit bit s = { s with trace := s.trace ++ pulse hi lo } ∧
      (bit ≠ 0 → (hi, lo) = (10, 4) ∧ lo < hi) ∧
      (bit = 0 → (hi, lo) = (4, 10) ∧ hi < lo) ∧
      hi + lo = 14 := by
  by_cases hb : bit = 0
  · refine ⟨4, 10, ?_, fun h => absurd hb h, fun _ => ⟨rfl, by decide⟩, rfl⟩
    rw [WS2812B_SendBit_eq]
    simp [hb, bitPulse]
  · refine ⟨10, 4, ?_, fun _ => ⟨rfl, by decide⟩, fun h => absurd h hb, rfl⟩
    rw [WS2812B_SendBit_eq]
    simp [hb, bitPulse]

/-- C5: for every n in 0..255, after `WS2812B_SetLEDCount n` the active length is
min(n, 30): 30 when n > 30 and n itself when n ≤ 30; the colour array is not touched. -/
theorem WS2812B_SetLEDCount_clamps (n : Nat) (hn : n ≤ 255) (s : State) :
    (WS2812B_SetLEDCount n s).g_ws2812bCount = min n MAX_WS2812B_COUNT ∧
    (n > 30 → (WS2812B_SetLEDCount n s).g_ws2812bCount = 30) ∧
    (n ≤ 30 → (WS2812B_SetLEDCount n s).g_ws2812bCount = n) ∧
    (WS2812B_SetLEDCount n s).g_ws2812bColors = s.g_ws2812bColors := by
  by_cases h30 : n > 30
  · have hmin : min n 30 = 30 := by omega
    simp [WS2812B_SetLEDCount, MAX_WS2812B_COUNT, printf, emit, h30, hmin]
  · have hmin : min n 30 = n := by omega
    simp [WS2812B_SetLEDCount, MAX_WS2812B_COUNT, printf, emit, h30, hmin]

/-- C5 at n = 200 on the initial state: the active length becomes 30. -/
theorem WS2812B_SetLEDCount_clamps_witness :
    200 ≤ 255 ∧ (WS2812B_SetLEDCount 200 State.init).g_ws2812bCount = 30 :=
  ⟨by decide, (WS2812B_SetLEDCount_clamps 200 (by decide) State.init).2.1 (by decide)⟩

/-- C6: for every state, every index at or beyond the active length (also one below the
capacity 30) and every colour, `WS2812B_SetLEDColor` returns the state it was given:
pixel buffer, active length and hardware log are unchanged. -/
theorem WS2812B_SetLEDColor_outside_noop (s : State) (index : Nat) (rgb : RGB_t)
    (h : s.g_ws2812bCount ≤ index) :
    WS2812B_SetLEDColor index rgb s = some s := by
  have hnot : ¬ (index < s.g_ws2812bCount) := by omega
  simp only [WS2812B_SetLEDColor, hnot, if_false]

/-- C6 at the initial state (active length 5) and index 7, which is inside the array. -/
theorem WS2812B_SetLEDColor_outside_noop_witness :
    State.init.g_ws2812bCount ≤ 7 ∧ 7 < MAX_WS2812B_COUNT ∧
    WS2812B_SetLEDColor 7 ⟨1, 2, 3⟩ State.init = some State.init :=
  ⟨by decide, by decide, WS2812B_SetLEDColor_outside_noop State.init 7 ⟨1, 2, 3⟩ (by decide)⟩

/-- C7: in every state with 30 slots and active length N ≤ 30, for every index < N,
`WS2812B_SetLEDColor` returns a state whose slot at that index holds the colour while
every other slot, the active length, the interrupt state and the hardware log (so no pin
activity) are unchanged. -/
theorem WS2812B_SetLEDColor_writes_slot (s : State) (h : s.WF) (index : Nat) (rgb : RGB_t)
    (hi : index < s.g_ws2812bCount) :
    ∃ s2 : State,
      WS2812B_SetLEDColor index rgb s = some s2 ∧
      s2.g_ws2812bColors[index]? = some rgb ∧
      (∀ j, j ≠ index → s2.g_ws2812bColors[j]? = s.g_ws2812bColors[j]?) ∧
      s2.g_ws2812bColors.length = s.g_ws2812bColors.length ∧
      s2.g_ws2812bCount = s.g_ws2812bCount ∧
      s2.irqEnabled = s.irqEnabled ∧
      s2.trace = s.trace := by
  obtain ⟨N, cs, q, t⟩ := s
  obtain ⟨hlen, hN⟩ := h
  simp only at hlen hN hi
  have hl : index < cs.length := by omega
  refine ⟨⟨N, cs.set index rgb, q, t⟩, WS2812B_SetLEDColor_eq N cs q t index rgb hi hl,
    ?_, ?_, ?_, rfl, rfl, rfl⟩
  · simp [List.getElem?_set, hl]
  · intro j hj
    have hne : ¬ index = j := fun e => hj e.symm
    simp [List.getElem?_set, hne]
  · simp

/-- C7 at the scenario state (active length 3) and index 1. -/
theorem WS2812B_SetLEDColor_writes_slot_witness :
    scenarioState.WF ∧ 1 < scenarioState.g_ws2812bCount ∧
    ∃ s2 : State,
      WS2812B_SetLEDColor 1 ⟨9, 8, 7⟩ scenarioState = some s2 ∧
      s2.g_ws2812bColors[1]? = some ⟨9, 8, 7⟩ ∧
      (∀ j, j ≠ 1 → s2.g_ws2812bColors[j]? = scenarioState.g_ws2812bColors[j]?) ∧
      s2.g_ws2812bColors.length = scenarioState.g_ws2812bColors.length ∧
      s2.g_ws2812bCount = scenarioState.g_ws2812bCount ∧
      s2.irqEnabled = scenarioState.irqEnabled ∧
      s2.trace = scenarioState.trace :=
  ⟨by decide, by decide,
    WS2812B_SetLEDColor_writes_slot scenarioState (by decide) 1 ⟨9, 8, 7⟩ (by decide)⟩

/-- C8: in every state with 30 slots and active length N ≤ 30, `WS2812B_ShowSolidColor`
returns, the active length is still N, and every slot 0..N-1 holds the given colour. -/
theorem WS2812B_ShowSolidColor_fills (s : State) (h : s.WF) (rgb : RGB_t) :
    ∃ s2 : State,
      WS2812B_ShowSolidColor rgb s = some s2 ∧
      s2.g_ws2812bCount = s.g_ws2812bCount ∧
      ∀ i, i < s.g_ws2812bCount → s2.g_ws2812bColors[i]? = some rgb := by
  obtain ⟨N, cs, q, t⟩ := s
  obtain ⟨hlen, hN⟩ := h
  simp only at hlen hN
  obtain ⟨cs2, h1, _, h3⟩ := fill_update_eq (fun _ => rgb) N cs q t
    "Solid color displayed (R:%d G:%d B:%d)\n" [rgb.r, rgb.g, rgb.b] (by omega)
  refine ⟨_, h1, rfl, ?_⟩
  intro i hi
  simp only at hi
  simp only [h3, hi, if_true]

/-- C8 at the scenario state (active length 3). -/
theorem WS2812B_ShowSolidColor_fills_witness :
    scenarioState.WF ∧
    ∃ s2 : State,
      WS2812B_ShowSolidColor ⟨10, 20, 30⟩ scenarioState = some s2 ∧
      s2.g_ws2812bCount = scenarioState.g_ws2812bCount ∧
      ∀ i, i < scenarioState.g_ws2812bCount → s2.g_ws2812bColors[i]? = some ⟨10, 20, 30⟩ :=
  ⟨by decide, WS2812B_ShowSolidColor_fills scenarioState (by decide) ⟨10, 20, 30⟩⟩

/-- C9: in every state with 30 slots and active length N ≤ 30, `WS2812B_ShowRainbow`
returns, the active length is still N, and every slot i in 0..N-1 holds entry i mod 7 of
the 7-entry table `RAINBOW_COLORS`. -/
theorem WS2812B_ShowRainbow_palette (s : State) (h : s.WF) :
    RAINBOW_COLORS.length = 7 ∧
    ∃ s2 : State,
      WS2812B_ShowRainbow s = some s2 ∧
      s2.g_ws2812bCount = s.g_ws2812bCount ∧
      ∀ i, i < s.g_ws2812bCount →
        ∃ c : RGB_t, RAINBOW_COLORS[i % 7]? = some c ∧ s2.g_ws2812bColors[i]? = some c := by
  obtain ⟨N, cs, q, t⟩ := s
  obtain ⟨hlen, hN⟩ := h
  simp only at hlen hN
  obtain ⟨cs2, h1, _, h3⟩ := fill_update_eq paletteAt N cs q t
    "Rainbow colors displayed\n" [] (by omega)
  rw [← rainbowLoop_body] at h1
  refine ⟨rfl, _, h1, rfl, ?_⟩
  intro i hi
  simp only at hi
  exact ⟨paletteAt i, RAINBOW_COLORS_lookup i, by simp only [h3, hi, if_true]⟩

/-- C9 with active length 10: slot 7 holds the same colour as slot 0, the first palette
entry. -/
theorem WS2812B_ShowRainbow_palette_witness :
    (WS2812B_SetLEDCount 10 State.init).WF ∧
    ∃ s2 : State,
      WS2812B_ShowRainbow (WS2812B_SetLEDCount 10 State.init) = some s2 ∧
      s2.g_ws2812bColors[7]? = s2.g_ws2812bColors[0]? ∧
      s2.g_ws2812bColors[0]? = some ⟨255, 0, 0⟩ := by
  refine ⟨by decide, ?_⟩
  obtain ⟨_, s2, h1, _, h3⟩ :=
    WS2812B_ShowRainbow_palette (WS2812B_SetLEDCount 10 State.init) (by decide)
  obtain ⟨c7, hp7, hc7⟩ := h3 7 (by decide)
  obtain ⟨c0, hp0, hc0⟩ := h3 0 (by decide)
  have e7 : c7 = ⟨255, 0, 0⟩ := Option.some.inj (hp7.symm.trans (by decide))
  have e0 : c0 = ⟨255, 0, 0⟩ := Option.some.inj (hp0.symm.trans (by decide))
  exact ⟨s2, h1, by rw [hc7, hc0, e7, e0], by rw [hc0, e0]⟩

/-- C10: in every state with 30 slots and active length N, 2 ≤ N ≤ 30,
`WS2812B_ShiftRainbow` returns, the active length is still N, slot N-1 holds the colour
previously at slot 0, and for every i in 1..N-1 slot i-1 holds the colour previously at
slot i. -/
theorem WS2812B_ShiftRainbow_rotates_left (s : State) (h : s.WF)
    (h2 : 2 ≤ s.g_ws2812bCount) :
    ∃ s2 : State,
      WS2812B_ShiftRainbow s = some s2 ∧
      s2.g_ws2812bCount = s.g_ws2812bCount ∧
      s2.g_ws2812bColors.length = s.g_ws2812bColors.length ∧
      s2.g_ws2812bColors[s.g_ws2812bCount - 1]? = s.g_ws2812bColors[0]? ∧
      ∀ i, 1 ≤ i → i < s.g_ws2812bCount →
        s2.g_ws2812bColors[i - 1]? = s.g_ws2812bColors[i]? := by
  obtain ⟨N, cs, q, t⟩ := s
  obtain ⟨hlen, hN⟩ := h
  simp only at hlen hN h2
  have hlen30 : cs.length = 30 := hlen
  have hN30 : N ≤ 30 := hN
  have h0 : 0 < cs.length := by omega
  obtain ⟨cs1, h1, hl1, hp1⟩ := shiftLoop_eq N cs q t (N - 1) (by omega)
  have hlast : N - 1 < cs1.length := by omega
  have hnot : ¬ (N ≤ 1) := by omega
  have hS : WS2812B_ShiftRainbow ⟨N, cs, q, t⟩ =
      some ⟨N, cs1.set (N - 1) cs[0], true,
        t ++ Event.disable_irq ::
          (((cs1.set (N - 1) cs[0]).take N).flatMap colorWire ++ resetHold ++
            [Event.enable_irq]) ++
          [Event.printf "Rainbow colors shifted one position\n" []]⟩ := by
    have hload : load 0 (⟨N, cs, q, t⟩ : State) = some cs[0] :=
      List.getElem?_eq_getElem h0
    have hlen2 : N ≤ (cs1.set (N - 1) cs[0]).length := by
      rw [List.length_set]; omega
    simp only [WS2812B_ShiftRainbow, hnot, if_false, hload, Option.some_bind, h1,
      store_eq N cs1 q t (N - 1) cs[0] hlast, WS2812B_Update_eq N _ q t hlen2,
      Option.map_some']
    rfl
  refine ⟨_, hS, rfl, ?_, ?_, ?_⟩
  · simp only [List.length_set, hl1]
  · simp [List.getElem?_set, hlast, List.getElem?_eq_getElem h0]
  · intro i hi1 hiN
    simp only at hiN
    have hne : ¬ (N - 1 = i - 1) := by omega
    have hlt : i - 1 < N - 1 := by omega
    have hi : i - 1 + 1 = i := by omega
    simp only [List.getElem?_set, hne, if_false, hp1, hlt, if_true, hi]

/-- C10 at the scenario state (active length 3): the colours rotate left by one. -/
theorem WS2812B_ShiftRainbow_rotates_left_witness :
    scenarioState.WF ∧ 2 ≤ scenarioState.g_ws2812bCount ∧
    ∃ s2 : State,
      WS2812B_ShiftRainbow scenarioState = some s2 ∧
      s2.g_ws2812bColors[0]? = some ⟨0, 255, 0⟩ ∧
      s2.g_ws2812bColors[1]? = some ⟨0, 0, 255⟩ ∧
      s2.g_ws2812bColors[2]? = some ⟨255, 0, 0⟩ := by
  refine ⟨by decide, by decide, ?_⟩
  obtain ⟨s2, h1, _, _, hlast, hrest⟩ :=
    WS2812B_ShiftRainbow_rotates_left scenarioState (by decide) (by decide)
  exact ⟨s2, h1, (hrest 1 (by decide) (by decide)).trans (by decide),
    (hrest 2 (by decide) (by decide)).trans (by decide), hlast.trans (by decide)⟩

/-- C11: in every state with 30 slots and active length N, 1 ≤ N ≤ 30, and for every k,
k calls of `WS2812B_ShiftRainbow` return, keep N, and leave in slot i < N the colour
that was in slot (i + k) mod N, every slot from N on being unchanged; the buffer is the
one (k mod N) calls produce, and N calls give back the original buffer. -/
theorem WS2812B_ShiftRainbow_times_rotates (s : State) (h : s.WF)
    (h1 : 1 ≤ s.g_ws2812bCount) (k : Nat) :
    (∃ s2 : State,
      WS2812B_ShiftRainbow_times k s = some s2 ∧
      s2.g_ws2812bCount = s.g_ws2812bCount ∧
      s2.g_ws2812bColors.length = s.g_ws2812bColors.length ∧
      (∀ i, i < s.g_ws2812bCount →
        s2.g_ws2812bColors[i]? = s.g_ws2812bColors[(i + k) % s.g_ws2812bCount]?) ∧
      (∀ i, s.g_ws2812bCount ≤ i → s2.g_ws2812bColors[i]? = s.g_ws2812bColors[i]?) ∧
      ∃ s3 : State,
        WS2812B_ShiftRainbow_times (k % s.g_ws2812bCount) s = some s3 ∧
        s3.g_ws2812bColors = s2.g_ws2812bColors) ∧
    ∃ sN : State,
      WS2812B_ShiftRainbow_times s.g_ws2812bCount s = some sN ∧
      sN.g_ws2812bColors = s.g_ws2812bColors := by
  obtain ⟨N, cs, q, t⟩ := s
  obtain ⟨hlen, hN⟩ := h
  simp only at hlen hN h1
  have hle : N ≤ cs.length := by omega
  obtain ⟨cs2, q2, t2, e2, l2, p2⟩ := WS2812B_ShiftRainbow_times_eq k N cs q t hle
  obtain ⟨cs3, q3, t3, e3, _, p3⟩ := WS2812B_ShiftRainbow_times_eq (k % N) N cs q t hle
  obtain ⟨csN, qN, tN, eN, _, pN⟩ := WS2812B_ShiftRainbow_times_eq N N cs q t hle
  refine ⟨⟨_, e2, rfl, l2, ?_, ?_, _, e3, ?_⟩, _, eN, ?_⟩
  · intro i hi
    simp only at hi
    simp only [p2, hi, if_true]
  · intro i hi
    simp only at hi
    have hnot : ¬ (i < N) := by omega
    simp only [p2, hnot, if_false]
  · apply List.ext_getElem?
    intro j
    simp only [p2, p3, Nat.add_mod_mod]
  · apply List.ext_getElem?
    intro j
    simp only [pN]
    by_cases hj : j < N
    · simp only [hj, if_true, Nat.add_mod_right, Nat.mod_eq_of_lt hj]
    · simp only [hj, if_false]

/-- C11 at the scenario state (active length 3): after 4 calls slot 0 holds what slot 1
held, and 3 calls give back the original buffer. -/
theorem WS2812B_ShiftRainbow_times_rotates_witness :
    scenarioState.WF ∧ 1 ≤ scenarioState.g_ws2812bCount ∧
    (∃ s2 : State,
      WS2812B_ShiftRainbow_times 4 scenarioState = some s2 ∧
      s2.g_ws2812bColors[0]? = some ⟨0, 255, 0⟩) ∧
    ∃ sN : State,
      WS2812B_ShiftRainbow_times 3 scenarioState = some sN ∧
      sN.g_ws2812bColors = scenarioState.g_ws2812bColors := by
  obtain ⟨⟨s2, e2, _, _, hrot, _⟩, hback⟩ :=
    WS2812B_ShiftRainbow_times_rotates scenarioState (by decide) (by decide) 4
  exact ⟨by decide, by decide, ⟨s2, e2, (hrot 0 (by decide)).trans (by decide)⟩, hback⟩

/-- C12: in every state with active length 0 or 1, `WS2812B_ShiftRainbow` returns the
state it was given: pixel buffer, active length and hardware log are unchanged. -/
theorem WS2812B_ShiftRainbow_noop_small (s : State) (h : s.g_ws2812bCount ≤ 1) :
    WS2812B_ShiftRainbow s = some s := by
  simp only [WS2812B_ShiftRainbow, h, if_true]

/-- C12 with one active slot and with none. -/
theorem WS2812B_ShiftRainbow_noop_small_witness :
    (WS2812B_SetLEDCount 1 State.init).g_ws2812bCount ≤ 1 ∧
    WS2812B_ShiftRainbow (WS2812B_SetLEDCount 1 State.init) =
      some (WS2812B_SetLEDCount 1 State.init) ∧
    WS2812B_ShiftRainbow (WS2812B_SetLEDCount 0 State.init) =
      some (WS2812B_SetLEDCount 0 State.init) :=
  ⟨by decide, WS2812B_ShiftRainbow_noop_small _ (by decide),
    WS2812B_ShiftRainbow_noop_small _ (by decide)⟩

/-- C13 as stated fails: with one active slot `WS2812B_ShiftRainbow` returns without
emitting anything, while an update on the resulting buffer drives the wire. -/
theorem WS2812B_ShiftRainbow_single_does_not_transmit :
    singleLedState.WF ∧
    ∃ s2 u : State,
      WS2812B_ShiftRainbow singleLedState = some s2 ∧
      WS2812B_Update { singleLedState with g_ws2812bColors := s2.g_ws2812bColors } = some u ∧
      emitted singleLedState s2 = [] ∧
      wireTrace (emitted singleLedState s2) ≠ wireTrace (emitted singleLedState u) := by
  refine ⟨by decide, singleLedState, _, rfl,
    WS2812B_Update_eq 1 (List.replicate 30 ⟨0, 0, 0⟩) true
      [Event.printf "WS2812B LED count set to: %d\n" [1]] (by decide), ?_, ?_⟩
  · simp [emitted]
  · intro heq
    have hm : Event.pin false ∈ wireTrace (emitted singleLedState
        ⟨1, List.replicate 30 ⟨0, 0, 0⟩, true,
          [Event.printf "WS2812B LED count set to: %d\n" [1]] ++ Event.disable_irq ::
            (((List.replicate 30 (⟨0, 0, 0⟩ : RGB_t)).take 1).flatMap colorWire ++ resetHold ++
              [Event.enable_irq])⟩) := by
      have he : emitted singleLedState
          ⟨1, List.replicate 30 ⟨0, 0, 0⟩, true,
            [Event.printf "WS2812B LED count set to: %d\n" [1]] ++ Event.disable_irq ::
              (((List.replicate 30 (⟨0, 0, 0⟩ : RGB_t)).take 1).flatMap colorWire ++
                resetHold ++ [Event.enable_irq])⟩ =
          Event.disable_irq ::
            (((List.replicate 30 (⟨0, 0, 0⟩ : RGB_t)).take 1).flatMap colorWire ++
              resetHold ++ [Event.enable_irq]) :=
        emitted_mk 1 (List.replicate 30 ⟨0, 0, 0⟩) true _ 1 _ true _
      rw [he]
      simp only [wireTrace, List.mem_filter, List.mem_cons, List.mem_append, resetHold]
      exact ⟨Or.inr (Or.inl (Or.inr (Or.inl trivial))), rfl⟩
    rw [← heq] at hm
    simp [emitted, wireTrace] at hm

/-- C13, amended: in every state with 30 slots and active length N ≤ 30,
`WS2812B_ShowSolidColor` and `WS2812B_ShowRainbow`, and `WS2812B_ShiftRainbow` when
N ≥ 2, return a state whose emitted events are exactly those of one `WS2812B_Update` on
the resulting buffer followed by the diagnostic `printf` (so the signal on the wire is
that of the update); `WS2812B_ShiftRainbow` with N ≤ 1 returns the state unchanged and
emits nothing. -/
theorem effects_transmit_once (s : State) (h : s.WF) :
    (∀ rgb : RGB_t, ∃ s2 u : State,
      WS2812B_ShowSolidColor rgb s = some s2 ∧
      WS2812B_Update { s with g_ws2812bColors := s2.g_ws2812bColors } = some u ∧
      emitted s s2 = emitted s u ++
        [Event.printf "Solid color displayed (R:%d G:%d B:%d)\n" [rgb.r, rgb.g, rgb.b]] ∧
      wireTrace (emitted s s2) = wireTrace (emitted s u)) ∧
    (∃ s2 u : State,
      WS2812B_ShowRainbow s = some s2 ∧
      WS2812B_Update { s with g_ws2812bColors := s2.g_ws2812bColors } = some u ∧
      emitted s s2 = emitted s u ++ [Event.printf "Rainbow colors displayed\n" []] ∧
      wireTrace (emitted s s2) = wireTrace (emitted s u)) ∧
    (2 ≤ s.g_ws2812bCount → ∃ s2 u : State,
      WS2812B_ShiftRainbow s = some s2 ∧
      WS2812B_Update { s with g_ws2812bColors := s2.g_ws2812bColors } = some u ∧
      emitted s s2 = emitted s u ++
        [Event.printf "Rainbow colors shifted one position\n" []] ∧
      wireTrace (emitted s s2) = wireTrace (emitted s u)) ∧
    (s.g_ws2812bCount ≤ 1 → WS2812B_ShiftRainbow s = some s ∧ emitted s s = []) := by
  obtain ⟨N, cs, q, t⟩ := s
  obtain ⟨hlen, hN⟩ := h
  simp only at hlen hN
  have hle : N ≤ cs.length := by omega
  refine ⟨?_, ?_, ?_, ?_⟩
  · intro rgb
    obtain ⟨cs2, h1, hl2, _⟩ := fill_update_eq (fun _ => rgb) N cs q t
      "Solid color displayed (R:%d G:%d B:%d)\n" [rgb.r, rgb.g, rgb.b] hle
    obtain ⟨u, hu, he, hw⟩ := transmits_once N cs q t cs2 _ _ (by omega) _ rfl
    exact ⟨_, u, h1, hu, he, hw⟩
  · obtain ⟨cs2, h1, hl2, _⟩ := fill_update_eq paletteAt N cs q t
      "Rainbow colors displayed\n" [] hle
    rw [← rainbowLoop_body] at h1
    obtain ⟨u, hu, he, hw⟩ := transmits_once N cs q t cs2 _ _ (by omega) _ rfl
    exact ⟨_, u, h1, hu, he, hw⟩
  · intro h2
    simp only at h2
    obtain ⟨cs2, h1, hl2, _⟩ := WS2812B_ShiftRainbow_eq N cs q t hle h2
    obtain ⟨u, hu, he, hw⟩ := transmits_once N cs q t cs2 _ _ (by omega) _ rfl
    exact ⟨_, u, h1, hu, he, hw⟩
  · intro h1
    simp only at h1
    exact ⟨by simp only [WS2812B_ShiftRainbow, h1, if_true], by simp [emitted]⟩

/-- C13, amended, at the scenario state (active length 3). -/
theorem effects_transmit_once_witness :
    scenarioState.WF ∧
    ∃ s2 u : State,
      WS2812B_ShowRainbow scenarioState = some s2 ∧
      WS2812B_Update { scenarioState with g_ws2812bColors := s2.g_ws2812bColors } = some u ∧
      emitted scenarioState s2 =
        emitted scenarioState u ++ [Event.printf "Rainbow colors displayed\n" []] ∧
      wireTrace (emitted scenarioState s2) = wireTrace (emitted scenarioState u) :=
  ⟨by decide, (effects_transmit_once scenarioState (by decide)).2.1⟩

/-- C14: in every state with 30 slots and active length N ≤ 30, the events
`WS2812B_Update` emits are: the interrupt disable first, then only pin writes and NOPs,
then the interrupt enable last; so, whatever the interrupt state on entry, no pin write
and no NOP of the call is executed while interrupts are enabled. -/
theorem WS2812B_Update_critical_section (s : State) (h : s.WF) :
    ∃ (u : State) (mid : List Event),
      WS2812B_Update s = some u ∧
      emitted s u = Event.disable_irq :: (mid ++ [Event.enable_irq]) ∧
      (∀ e, e ∈ mid → isWire e = true) ∧
      exposed s.irqEnabled (emitted s u) = false := by
  obtain ⟨N, cs, q, t⟩ := s
  obtain ⟨hlen, hN⟩ := h
  simp only at hlen hN
  have hle : N ≤ cs.length := by omega
  have hmid := isWire_of_mem_frame (cs.take N)
  refine ⟨_, (cs.take N).flatMap colorWire ++ resetHold,
    WS2812B_Update_eq N cs q t hle, emitted_mk N cs q t N cs true _, hmid, ?_⟩
  rw [emitted_mk]
  show exposed false (((cs.take N).flatMap colorWire ++ resetHold) ++ [Event.enable_irq]) = _
  rw [exposed_false_append _ _ hmid]
  rfl

/-- C14 at the scenario state. -/
theorem WS2812B_Update_critical_section_witness :
    scenarioState.WF ∧
    ∃ (u : State) (mid : List Event),
      WS2812B_Update scenarioState = some u ∧
      emitted scenarioState u = Event.disable_irq :: (mid ++ [Event.enable_irq]) ∧
      (∀ e, e ∈ mid → isWire e = true) ∧
      exposed scenarioState.irqEnabled (emitted scenarioState u) = false :=
  ⟨by decide, WS2812B_Update_critical_section scenarioState (by decide)⟩

/-- C15 as stated fails: entered with interrupts disabled, `WS2812B_Update` returns with
interrupts enabled. -/
theorem WS2812B_Update_does_not_restore_disabled :
    irqOffState.WF ∧ irqOffState.irqEnabled = false ∧
    ∃ u : State, WS2812B_Update irqOffState = some u ∧ u.irqEnabled ≠ irqOffState.irqEnabled := by
  refine ⟨by decide, rfl, _, WS2812B_Update_eq 3 _ false _ (by decide), ?_⟩
  decide

/-- C15, amended: in every state with 30 slots and active length N ≤ 30, when
`WS2812B_Update` returns interrupts are enabled, whatever their state on entry; the
state on entry is therefore restored exactly when interrupts were enabled on entry. -/
theorem WS2812B_Update_leaves_irq_enabled (s : State) (h : s.WF) :
    ∃ u : State,
      WS2812B_Update s = some u ∧
      u.irqEnabled = true ∧
      (u.irqEnabled = s.irqEnabled ↔ s.irqEnabled = true) := by
  obtain ⟨N, cs, q, t⟩ := s
  obtain ⟨hlen, hN⟩ := h
  simp only at hlen hN
  refine ⟨_, WS2812B_Update_eq N cs q t (by omega), rfl, ?_⟩
  cases q <;> simp

/-- C15, amended, at the scenario state entered with interrupts disabled. -/
theorem WS2812B_Update_leaves_irq_enabled_witness :
    irqOffState.WF ∧
    ∃ u : State,
      WS2812B_Update irqOffState = some u ∧
      u.irqEnabled = true ∧
      (u.irqEnabled = irqOffState.irqEnabled ↔ irqOffState.irqEnabled = true) :=
  ⟨by decide, WS2812B_Update_leaves_irq_enabled irqOffState (by decide)⟩

/-- C16: for every 32-bit n, `DelayNop n` returns after executing exactly max(n, 1) NOPs,
and for every 32-bit ns, `DelayNs ns` returns after executing exactly
max(floor(ns / 42), 1) NOPs; neither number is zero, and both fit the 32-bit loop
counter. -/
theorem delays_run_at_least_one_nop (n ns : Nat) (hn : n < 2 ^ 32) (hns : ns < 2 ^ 32)
    (s : State) :
    DelayNop n s = { s with trace := s.trace ++ List.replicate (max n 1) Event.nop } ∧
    DelayNs ns s =
      { s with trace := s.trace ++ List.replicate (max (ns / 42) 1) Event.nop } ∧
    0 < max n 1 ∧ 0 < max (ns / 42) 1 ∧
    max n 1 < 2 ^ 32 ∧ max (ns / 42) 1 < 2 ^ 32 := by
  refine ⟨?_, ?_, by omega, by omega, by omega, by omega⟩
  · rw [DelayNop_eq, ite_zero_eq_max]
  · rw [DelayNs_eq, ite_zero_eq_max]

/-- C16 for a request of 0 NOPs and a request of 41 ns (less than one unit): one NOP
each. -/
theorem delays_run_at_least_one_nop_witness :
    0 < 2 ^ 32 ∧ 41 < 2 ^ 32 ∧
    DelayNop 0 State.init =
      { State.init with trace := State.init.trace ++ List.replicate (max 0 1) Event.nop } ∧
    DelayNs 41 State.init =
      { State.init with
        trace := State.init.trace ++ List.replicate (max (41 / 42) 1) Event.nop } ∧
    max 0 1 = 1 ∧ max (41 / 42) 1 = 1 :=
  ⟨by decide, by decide,
    (delays_run_at_least_one_nop 0 41 (by decide) (by decide) State.init).1,
    (delays_run_at_least_one_nop 0 41 (by decide) (by decide) State.init).2.1,
    by decide, by decide⟩

/-- C17: `WS2812B_Reset` drives the pin low and then executes 1200 NOPs, never driving
the pin high; at the calibration of 24 NOPs per microsecond (one NOP per cycle of the
24 MHz clock) 1200 NOPs last at least 50 microseconds. -/
theorem WS2812B_Reset_holds_50us (s : State) :
    ∃ nops : Nat,
      WS2812B_Reset s =
        { s with trace := s.trace ++ Event.pin false :: List.replicate nops Event.nop } ∧
      nops = 1200 ∧
      50 * NOPS_PER_US ≤ nops ∧
      Event.pin true ∉ Event.pin false :: List.replicate nops Event.nop := by
  refine ⟨1200, WS2812B_Reset_eq s, rfl, by decide, ?_⟩
  simp only [List.mem_cons, List.mem_replicate]
  intro hmem
  rcases hmem with hmem | ⟨_, hmem⟩
  · exact absurd hmem (by decide)
  · exact absurd hmem (by decide)

/-- C18: after every finite sequence of the public operations, with arbitrary
arguments, run from the initial state (active length 5), every operation has returned
without an access outside the array, the array still has its 30 slots and the active
length is at most 30. -/
theorem runOps_keeps_capacity (ops : List Op) :
    State.init.g_ws2812bCount = 5 ∧
    ∃ s : State,
      runOps ops State.init = some s ∧
      s.g_ws2812bColors.length = 30 ∧
      s.g_ws2812bCount ≤ 30 := by
  obtain ⟨s, hs, hlen, hN⟩ := runOps_WF ops State.init (by decide)
  exact ⟨rfl, s, hs, hlen, hN⟩

/-- C19: what the loop of `main` does at the failing input.  With 50 ticks elapsed
since the last rotation (fewer than the documented 100) the loop calls
`WS2812B_ShiftRainbow`, which rotates the buffer, and stores the tick count; with 49
ticks elapsed it does neither. -/
theorem main_rainbowStep_shifts_after_50_ticks :
    sub32 50 0 = 50 ∧
    sub32 50 0 < RAINBOW_SHIFT_TICKS_DOCUMENTED ∧
    (∃ s2 : State,
      WS2812B_ShiftRainbow scenarioState = some s2 ∧
      main_rainbowStep 50 50 0 scenarioState = some (s2, 50) ∧
      s2.g_ws2812bColors[0]? = some ⟨0, 255, 0⟩ ∧
      scenarioState.g_ws2812bColors[0]? = some ⟨255, 0, 0⟩) ∧
    main_rainbowStep 49 49 0 scenarioState = some (scenarioState, 0) := by
  refine ⟨by decide, by decide, ?_, ?_⟩
  · obtain ⟨cs2, h1, _, hp⟩ := WS2812B_ShiftRainbow_eq 3
      ([⟨255, 0, 0⟩, ⟨0, 255, 0⟩, ⟨0, 0, 255⟩] ++ List.replicate 27 ⟨0, 0, 0⟩) true
      [Event.printf "WS2812B LED count set to: %d\n" [3]] (by decide) (by decide)
    have h50 : sub32 50 0 ≥ 50 := by decide
    refine ⟨_, h1, ?_, ?_, by decide⟩
    · simp only [main_rainbowStep, h50, if_true]
      exact congrArg (Option.map fun s => (s, 50)) h1
    · exact (hp 0).trans (by decide)
  · have h49 : ¬ (sub32 49 0 ≥ 50) := by decide
    simp only [main_rainbowStep, h49, if_false]

/-- C20: for two states with 30 slots, the same active length N ≤ 30 and `uint8_t`
channels in their active slots, `WS2812B_Update` returns on both; decoding what it
emitted (a pulse is a 1 when its high phase has more NOPs than its low phase, bits are
grouped most significant first into bytes, bytes into green, red, blue triples) gives
back slots 0..N-1; hence equal emitted traces imply equal active slots. -/
theorem WS2812B_Update_lossless (s1 s2 : State) (h1 : s1.WF) (h2 : s2.WF)
    (hN : s1.g_ws2812bCount = s2.g_ws2812bCount)
    (hb1 : ∀ c, c ∈ s1.g_ws2812bColors.take s1.g_ws2812bCount → c.InRange)
    (hb2 : ∀ c, c ∈ s2.g_ws2812bColors.take s2.g_ws2812bCount → c.InRange) :
    ∃ u1 u2 : State,
      WS2812B_Update s1 = some u1 ∧
      WS2812B_Update s2 = some u2 ∧
      decodeFrame (emitted s1 u1) = s1.g_ws2812bColors.take s1.g_ws2812bCount ∧
      decodeFrame (emitted s2 u2) = s2.g_ws2812bColors.take s2.g_ws2812bCount ∧
      (emitted s1 u1 = emitted s2 u2 →
        s1.g_ws2812bColors.take s1.g_ws2812bCount =
          s2.g_ws2812bColors.take s1.g_ws2812bCount) := by
  obtain ⟨N1, cs1, q1, t1⟩ := s1
  obtain ⟨N2, cs2, q2, t2⟩ := s2
  obtain ⟨hlen1, hN1⟩ := h1
  obtain ⟨hlen2, hN2⟩ := h2
  simp only at hlen1 hN1 hlen2 hN2 hN hb1 hb2
  subst hN
  obtain ⟨u1, e1, d1⟩ := decodeFrame_Update N1 cs1 q1 t1 (by omega) hb1
  obtain ⟨u2, e2, d2⟩ := decodeFrame_Update N1 cs2 q2 t2 (by omega) hb2
  refine ⟨u1, u2, e1, e2, d1, d2, ?_⟩
  intro heq
  show cs1.take N1 = cs2.take N1
  rw [← d1, ← d2, heq]

/-- C20 at two states with the scenario buffer. -/
theorem WS2812B_Update_lossless_witness :
    scenarioState.WF ∧ irqOffState.WF ∧
    scenarioState.g_ws2812bCount = irqOffState.g_ws2812bCount ∧
    (∀ c, c ∈ scenarioState.g_ws2812bColors.take scenarioState.g_ws2812bCount → c.InRange) ∧
    (∀ c, c ∈ irqOffState.g_ws2812bColors.take irqOffState.g_ws2812bCount → c.InRange) ∧
    ∃ u1 u2 : State,
      WS2812B_Update scenarioState = some u1 ∧
      WS2812B_Update irqOffState = some u2 ∧
      decodeFrame (emitted scenarioState u1) =
        scenarioState.g_ws2812bColors.take scenarioState.g_ws2812bCount ∧
      decodeFrame (emitted irqOffState u2) =
        irqOffState.g_ws2812bColors.take irqOffState.g_ws2812bCount ∧
      (emitted scenarioState u1 = emitted irqOffState u2 →
        scenarioState.g_ws2812bColors.take scenarioState.g_ws2812bCount =
          irqOffState.g_ws2812bColors.take scenarioState.g_ws2812bCount) :=
  ⟨by decide, by decide, by decide, by decide, by decide,
    WS2812B_Update_lossless scenarioState irqOffState (by decide) (by decide) (by decide)
      (by decide) (by decide)⟩

/-- C21: in every state with 30 slots and active length N ≤ 30, each of
`WS2812B_ShowSolidColor`, `WS2812B_ShowRainbow`, `WS2812B_ShiftRainbow` and
`WS2812B_Update` returns a state with the same active length and the same number of
slots in which every slot at an index ≥ N holds what it held before; `WS2812B_Update`
leaves the whole colour array unchanged. -/
theorem effects_leave_inactive_slots (s : State) (h : s.WF) :
    (∀ rgb : RGB_t, ∃ s2 : State,
      WS2812B_ShowSolidColor rgb s = some s2 ∧
      s2.g_ws2812bCount = s.g_ws2812bCount ∧
      s2.g_ws2812bColors.length = s.g_ws2812bColors.length ∧
      ∀ j, s.g_ws2812bCount ≤ j → s2.g_ws2812bColors[j]? = s.g_ws2812bColors[j]?) ∧
    (∃ s2 : State,
      WS2812B_ShowRainbow s = some s2 ∧
      s2.g_ws2812bCount = s.g_ws2812bCount ∧
      s2.g_ws2812bColors.length = s.g_ws2812bColors.length ∧
      ∀ j, s.g_ws2812bCount ≤ j → s2.g_ws2812bColors[j]? = s.g_ws2812bColors[j]?) ∧
    (∃ s2 : State,
      WS2812B_ShiftRainbow s = some s2 ∧
      s2.g_ws2812bCount = s.g_ws2812bCount ∧
      s2.g_ws2812bColors.length = s.g_ws2812bColors.length ∧
      ∀ j, s.g_ws2812bCount ≤ j → s2.g_ws2812bColors[j]? = s.g_ws2812bColors[j]?) ∧
    ∃ u : State,
      WS2812B_Update s = some u ∧
      u.g_ws2812bCount = s.g_ws2812bCount ∧
      u.g_ws2812bColors = s.g_ws2812bColors := by
  obtain ⟨N, cs, q, t⟩ := s
  obtain ⟨hlen, hN⟩ := h
  simp only at hlen hN
  have hle : N ≤ cs.length := by omega
  have keep : ∀ (cs2 : List RGB_t) (g : Nat → Option RGB_t),
      (∀ j, cs2[j]? = if j < N then g j else cs[j]?) →
      ∀ j, N ≤ j → cs2[j]? = cs[j]? := by
    intro cs2 g hp j hj
    have hnot : ¬ (j < N) := by omega
    simp only [hp, hnot, if_false]
  refine ⟨?_, ?_, ?_, ?_⟩
  · intro rgb
    obtain ⟨cs2, h1, hl2, hp⟩ := fill_update_eq (fun _ => rgb) N cs q t
      "Solid color displayed (R:%d G:%d B:%d)\n" [rgb.r, rgb.g, rgb.b] hle
    exact ⟨_, h1, rfl, hl2, keep cs2 _ hp⟩
  · obtain ⟨cs2, h1, hl2, hp⟩ := fill_update_eq paletteAt N cs q t
      "Rainbow colors displayed\n" [] hle
    rw [← rainbowLoop_body] at h1
    exact ⟨_, h1, rfl, hl2, keep cs2 _ hp⟩
  · obtain ⟨cs2, q2, t2, h1, hl2, hp⟩ := WS2812B_ShiftRainbow_rotate N cs q t hle
    exact ⟨_, h1, rfl, hl2, keep cs2 _ hp⟩
  · exact ⟨_, WS2812B_Update_eq N cs q t hle, rfl, rfl⟩

/-- C21 at the scenario state (active length 3): after the rainbow effect slot 3, the
first inactive one, still holds the zero colour it held before, and an update leaves the
whole array as it was. -/
theorem effects_leave_inactive_slots_witness :
    scenarioState.WF ∧
    (∃ s2 : State,
      WS2812B_ShowRainbow scenarioState = some s2 ∧
      s2.g_ws2812bCount = 3 ∧
      s2.g_ws2812bColors[3]? = some ⟨0, 0, 0⟩) ∧
    ∃ u : State,
      WS2812B_Update scenarioState = some u ∧
      u.g_ws2812bCount = scenarioState.g_ws2812bCount ∧
      u.g_ws2812bColors = scenarioState.g_ws2812bColors := by
  obtain ⟨_, ⟨s2, h1, hc, _, hp⟩, _, hu⟩ :=
    effects_leave_inactive_slots scenarioState (by decide)
  exact ⟨by decide, ⟨s2, h1, hc, (hp 3 (by decide)).trans (by decide)⟩, hu⟩

end WS2812B
